import Mathlib

/-!
Verification of `src/workers.py` (Monte Carlo π sampling worker).

The Python source is:

    def worker(iterations):
        simulations = np.linalg.norm(np.random.rand(iterations,2), axis = 1)
        return np.count_nonzero(simulations < 1)

We embed the ambient NumPy random generator as an explicit state: an
infinite stream of scalar draws together with a cursor.  `np.random.rand
(n, 2)` consumes `2 * n` scalars from the stream, row-major, and advances
the cursor; on a negative or non-integral shape argument it raises
(ValueError resp. TypeError) before consuming anything, which we embed as
an `Except` error with the state unchanged.  The `iterations` argument is
embedded as a rational so that non-integral inputs such as `2.5` are
representable.
-/

namespace Workers

/-- State of the ambient random generator: an infinite stream of scalar
draws and a cursor marking how many scalars have been consumed. -/
structure RandState where
  stream : Nat → ℝ
  pos : Nat

/-- Errors NumPy raises on a bad shape argument to `np.random.rand`:
`ValueError` ("negative dimensions are not allowed") for a negative
dimension, `TypeError` ("'float' object cannot be interpreted as an
integer") for a non-integral one.  Both are invalid-argument failures. -/
inductive NpError where
  | valueError
  | typeError
deriving DecidableEq

/-- `np.random.rand(iterations, 2)`: validates the shape argument
(integrality first, then sign, as NumPy does), then draws `iterations`
rows of two scalars each from the stream, row-major, advancing the
cursor by `2 * iterations`.  On a bad argument it raises without
consuming any draws. -/
def npRandomRand (iterations : ℚ) (s : RandState) :
    Except NpError (List (ℝ × ℝ)) × RandState :=
  if iterations.den = 1 then
    if 0 ≤ iterations.num then
      (Except.ok ((List.range iterations.num.toNat).map fun i =>
        (s.stream (s.pos + 2 * i), s.stream (s.pos + 2 * i + 1))),
       ⟨s.stream, s.pos + 2 * iterations.num.toNat⟩)
    else (Except.error NpError.valueError, s)
  else (Except.error NpError.typeError, s)

/-- `np.linalg.norm(a, axis = 1)`: the Euclidean norm of each row. -/
noncomputable def npLinalgNorm (rows : List (ℝ × ℝ)) : List ℝ :=
  rows.map fun p => Real.sqrt (p.1 ^ 2 + p.2 ^ 2)

/-- `np.count_nonzero(v < 1)`: the number of entries strictly below 1. -/
noncomputable def npCountNonzero_lt_one (v : List ℝ) : Nat :=
  v.countP fun d => decide (d < 1)

/-- `worker` from `src/workers.py`: draw `iterations` points uniformly
from the unit square, take the Euclidean norm of each, and count those
strictly inside the unit circle.  An error from `np.random.rand`
propagates to the caller. -/
noncomputable def worker (iterations : ℚ) (s : RandState) :
    Except NpError Nat × RandState :=
  match npRandomRand iterations s with
  | (Except.error e, s1) => (Except.error e, s1)
  | (Except.ok rows, s1) =>
      (Except.ok (npCountNonzero_lt_one (npLinalgNorm rows)), s1)

/-- The spec's §4.1 name for the operation realized by `worker`. -/
noncomputable def count_inside : ℚ → RandState → Except NpError Nat × RandState :=
  worker

theorem den_natCast (n : Nat) : ((n : ℚ)).den = 1 := Rat.den_natCast n

theorem npRandomRand_natCast (n : Nat) (s : RandState) :
    npRandomRand (n : ℚ) s =
      (Except.ok ((List.range n).map fun i =>
        (s.stream (s.pos + 2 * i), s.stream (s.pos + 2 * i + 1))),
       ⟨s.stream, s.pos + 2 * n⟩) := by
  simp [npRandomRand, Rat.den_natCast, Rat.num_natCast]

theorem worker_natCast (n : Nat) (s : RandState) :
    worker (n : ℚ) s =
      (Except.ok (npCountNonzero_lt_one (npLinalgNorm
        ((List.range n).map fun i =>
          (s.stream (s.pos + 2 * i), s.stream (s.pos + 2 * i + 1))))),
       ⟨s.stream, s.pos + 2 * n⟩) := by
  rw [worker, npRandomRand_natCast]

/-- **C4** `count_inside(0)` returns exactly 0. -/
theorem count_inside_zero (s : RandState) :
    (count_inside (0 : ℚ) s).1 = Except.ok 0 := by
  have h : ((0 : ℚ)) = ((0 : Nat) : ℚ) := by norm_num
  rw [count_inside, h, worker_natCast]
  simp [npLinalgNorm, npCountNonzero_lt_one]

/-- **C7** `count_inside(0)` returns without invoking the randomness
source: the generator state, cursor included, is returned unchanged, so
no draw is consumed. -/
theorem count_inside_zero_no_draws (s : RandState) :
    count_inside (0 : ℚ) s = (Except.ok 0, s) := by
  have h : ((0 : ℚ)) = ((0 : Nat) : ℚ) := by norm_num
  rw [count_inside, h, worker_natCast]
  cases s with
  | mk stream pos => simp [npLinalgNorm, npCountNonzero_lt_one]

theorem countP_map_range_card (n : Nat) (f : Nat → ℝ)
    [DecidablePred fun i => f i < 1] :
    ((List.range n).map f).countP (fun d => decide (d < 1)) =
      ((Finset.range n).filter (fun i => f i < 1)).card := by
  induction n with
  | zero => simp
  | succ k ih =>
      rw [List.range_succ, List.map_append, List.countP_append,
        Finset.range_succ, Finset.filter_insert]
      by_cases h : f k < 1
      · rw [if_pos h, Finset.card_insert_of_not_mem (by simp)]
        simp [h, ih]
      · rw [if_neg h]
        simp [h, ih]

/-- **C1** For every `n` and every stream of draws, `count_inside(n)`
returns exactly the number of the `n` drawn samples whose Euclidean norm
is strictly below 1; samples with norm 1 or greater are not counted. -/
theorem count_inside_counts_strictly_inside (n : Nat) (s : RandState) :
    (count_inside (n : ℚ) s).1 = Except.ok
      ((Finset.range n).filter (fun i =>
        Real.sqrt (s.stream (s.pos + 2 * i) ^ 2
          + s.stream (s.pos + 2 * i + 1) ^ 2) < 1)).card := by
  rw [count_inside, worker_natCast]
  have hnorm : npLinalgNorm ((List.range n).map fun i =>
      (s.stream (s.pos + 2 * i), s.stream (s.pos + 2 * i + 1))) =
      (List.range n).map fun i =>
        Real.sqrt (s.stream (s.pos + 2 * i) ^ 2
          + s.stream (s.pos + 2 * i + 1) ^ 2) := by
    simp [npLinalgNorm, List.map_map]
  rw [hnorm]
  exact congrArg Except.ok (countP_map_range_card n _)

/-- **C2** The result of `count_inside(n)` is an integer `r` with
`0 ≤ r ≤ n`. -/
theorem count_inside_upper_bound (n : Nat) (s : RandState) (r : Nat)
    (h : (count_inside (n : ℚ) s).1 = Except.ok r) : 0 ≤ r ∧ r ≤ n := by
  refine ⟨Nat.zero_le r, ?_⟩
  rw [count_inside, worker_natCast] at h
  obtain rfl : npCountNonzero_lt_one (npLinalgNorm ((List.range n).map fun i =>
      (s.stream (s.pos + 2 * i), s.stream (s.pos + 2 * i + 1)))) = r := by
    simpa using h
  refine le_trans (List.countP_le_length _) ?_
  simp [npLinalgNorm]

theorem countP_replicate_lt_one (a : ℝ) (n : Nat) :
    (List.replicate n a).countP (fun d => decide (d < 1)) =
      if a < 1 then n else 0 := by
  induction n with
  | zero => simp
  | succ k ih =>
      rw [List.replicate_succ, List.countP_cons, ih]
      by_cases h : a < 1 <;> simp [h, Nat.add_comm]

theorem count_inside_const (c : ℝ) (n : Nat) (pos : Nat) :
    (count_inside (n : ℚ) ⟨fun _ => c, pos⟩).1 =
      Except.ok (if Real.sqrt (c ^ 2 + c ^ 2) < 1 then n else 0) := by
  rw [count_inside, worker_natCast]
  have hrows : npLinalgNorm ((List.range n).map fun i =>
      ((fun _ => c) (pos + 2 * i), (fun _ => c) (pos + 2 * i + 1))) =
      List.replicate n (Real.sqrt (c ^ 2 + c ^ 2)) := by
    simp [npLinalgNorm, List.map_map]
  rw [hrows, npCountNonzero_lt_one, countP_replicate_lt_one]

/-- **C6** With a source yielding `(0, 0)` on every draw,
`count_inside(5)` returns 5; with a source yielding `(1, 1)` on every
draw, `count_inside(5)` returns 0 (distance `√2 ≥ 1`). -/
theorem count_inside_concrete_scenarios :
    (count_inside ((5 : Nat) : ℚ) ⟨fun _ => 0, 0⟩).1 = Except.ok 5 ∧
    (count_inside ((5 : Nat) : ℚ) ⟨fun _ => 1, 0⟩).1 = Except.ok 0 := by
  constructor
  · rw [count_inside_const]
    have h0 : Real.sqrt ((0 : ℝ) ^ 2 + (0 : ℝ) ^ 2) < 1 := by
      norm_num
    rw [if_pos h0]
  · rw [count_inside_const]
    have h2 : (1 : ℝ) < Real.sqrt ((1 : ℝ) ^ 2 + (1 : ℝ) ^ 2) := by
      rw [show ((1 : ℝ) ^ 2 + (1 : ℝ) ^ 2) = 2 by norm_num]
      rw [show (1 : ℝ) = Real.sqrt 1 by rw [Real.sqrt_one]]
      exact Real.sqrt_lt_sqrt (by norm_num) (by norm_num)
    rw [if_neg (not_lt.2 (le_of_lt h2))]

/-- **C5** `count_inside` is deterministic in its random source: two
invocations with the same `iterations` whose streams provide identical
draws at the positions consumed produce the same result. -/
theorem count_inside_deterministic (n : Nat) (s₁ s₂ : RandState)
    (h : ∀ j, j < 2 * n → s₁.stream (s₁.pos + j) = s₂.stream (s₂.pos + j)) :
    (count_inside (n : ℚ) s₁).1 = (count_inside (n : ℚ) s₂).1 := by
  rw [count_inside, worker_natCast, worker_natCast]
  have hrows : ((List.range n).map fun i =>
      (s₁.stream (s₁.pos + 2 * i), s₁.stream (s₁.pos + 2 * i + 1))) =
      ((List.range n).map fun i =>
      (s₂.stream (s₂.pos + 2 * i), s₂.stream (s₂.pos + 2 * i + 1))) := by
    refine List.map_congr_left ?_
    intro i hi
    rw [List.mem_range] at hi
    have h1 := h (2 * i) (by omega)
    have h2 := h (2 * i + 1) (by omega)
    rw [← Nat.add_assoc, ← Nat.add_assoc] at h2
    rw [h1, h2]
  rw [hrows]

/-- Witness for C5: two generators with equal streams but different
cursors over a constant stream agree on `count_inside(1)`. -/
theorem count_inside_deterministic_witness :
    (count_inside ((1 : Nat) : ℚ) ⟨fun _ => 0, 5⟩).1 =
      (count_inside ((1 : Nat) : ℚ) ⟨fun _ => 0, 0⟩).1 :=
  count_inside_deterministic 1 ⟨fun _ => 0, 5⟩ ⟨fun _ => 0, 0⟩
    (fun _ _ => rfl)

theorem count_inside_three_zero :
    (count_inside ((3 : Nat) : ℚ) ⟨fun _ => 0, 0⟩).1 = Except.ok 3 := by
  rw [count_inside_const]
  have h0 : Real.sqrt ((0 : ℝ) ^ 2 + (0 : ℝ) ^ 2) < 1 := by norm_num
  rw [if_pos h0]

/-- Witness for C2 at `n = 3` with the constant-zero stream. -/
theorem count_inside_upper_bound_witness :
    (count_inside ((3 : Nat) : ℚ) ⟨fun _ => 0, 0⟩).1 = Except.ok 3 ∧
      0 ≤ 3 ∧ 3 ≤ 3 :=
  ⟨count_inside_three_zero,
    count_inside_upper_bound 3 ⟨fun _ => 0, 0⟩ 3 count_inside_three_zero⟩

/-- **C3** `count_inside` fails with an invalid-argument error exactly
when `iterations` is negative or non-integral — in particular at `-1`
(ValueError) and `2.5` (TypeError) — and succeeds for every non-negative
integer, including 0. -/
theorem count_inside_error_conditions :
    (∀ s : RandState,
      (count_inside (-1 : ℚ) s).1 = Except.error NpError.valueError) ∧
    (∀ s : RandState,
      (count_inside (5 / 2 : ℚ) s).1 = Except.error NpError.typeError) ∧
    (∀ (q : ℚ) (s : RandState),
      (q.den ≠ 1 ∨ q < 0) ↔ ∃ e, (count_inside q s).1 = Except.error e) ∧
    (∀ (n : Nat) (s : RandState),
      ∃ r, (count_inside (n : ℚ) s).1 = Except.ok r) := by
  have herr : ∀ (q : ℚ) (s : RandState), q.den ≠ 1 ∨ q < 0 →
      ∃ e, (count_inside q s).1 = Except.error e := by
    intro q s h
    rcases h with h | h
    · exact ⟨NpError.typeError, by simp [count_inside, worker, npRandomRand, h]⟩
    · by_cases hd : q.den = 1
      · have h0 : ¬ 0 ≤ q.num := by
          rw [Rat.num_nonneg]
          exact not_le.2 h
        exact ⟨NpError.valueError,
          by simp [count_inside, worker, npRandomRand, hd, h0]⟩
      · exact ⟨NpError.typeError, by simp [count_inside, worker, npRandomRand, hd]⟩
  refine ⟨?_, ?_, ?_, ?_⟩
  · intro s
    have hd : ((-1 : ℚ)).den = 1 := by decide
    have h0 : ¬ 0 ≤ ((-1 : ℚ)).num := by decide
    simp [count_inside, worker, npRandomRand, hd, h0]
  · intro s
    have hd : ¬ ((5 / 2 : ℚ)).den = 1 := by norm_num
    simp [count_inside, worker, npRandomRand, hd]
  · intro q s
    constructor
    · exact herr q s
    · rintro ⟨e, he⟩
      by_contra hcon
      push_neg at hcon
      obtain ⟨hd, hq⟩ := hcon
      have h0 : 0 ≤ q.num := Rat.num_nonneg.2 hq
      rw [count_inside, worker] at he
      simp [npRandomRand, hd, h0] at he
  · intro n s
    exact ⟨_, by rw [count_inside, worker_natCast]⟩

/-- Witness for C3: `7/3` is non-integral, so `count_inside (7/3)`
fails with an invalid-argument error. -/
theorem count_inside_error_conditions_witness :
    ∃ e, (count_inside (7 / 3 : ℚ) ⟨fun _ => 0, 0⟩).1 = Except.error e :=
  (count_inside_error_conditions.2.2.1 (7 / 3 : ℚ) ⟨fun _ => 0, 0⟩).1
    (Or.inl (by norm_num))

/-- **C8** On invalid input (negative or non-integral `iterations`),
`count_inside` signals the failure with no partial computation: the
generator state is returned unchanged (no draw consumed) and the error
is the only output. -/
theorem count_inside_invalid_no_partial (q : ℚ) (s : RandState)
    (h : q.den ≠ 1 ∨ q < 0) :
    ∃ e, count_inside q s = (Except.error e, s) := by
  rcases h with h | h
  · exact ⟨NpError.typeError, by simp [count_inside, worker, npRandomRand, h]⟩
  · by_cases hd : q.den = 1
    · have h0 : ¬ 0 ≤ q.num := by
        rw [Rat.num_nonneg]
        exact not_le.2 h
      exact ⟨NpError.valueError,
        by simp [count_inside, worker, npRandomRand, hd, h0]⟩
    · exact ⟨NpError.typeError, by simp [count_inside, worker, npRandomRand, hd]⟩

/-- Witness for C8 at the negative input `-2`. -/
theorem count_inside_invalid_no_partial_witness :
    ∃ e, count_inside (-2 : ℚ) ⟨fun _ => 0, 0⟩ =
      (Except.error e, (⟨fun _ => 0, 0⟩ : RandState)) :=
  count_inside_invalid_no_partial (-2 : ℚ) ⟨fun _ => 0, 0⟩
    (Or.inr (by norm_num))

/-- Modelled from the spec: `np.random.rand` (library code, not under
`src/`) draws each coordinate "from the continuous uniform distribution
over [0,1)", i.e. every scalar of the stream lies in the half-open unit
interval. -/
def UniformStream (s : RandState) : Prop :=
  ∀ i, 0 ≤ s.stream i ∧ s.stream i < 1

/-- **C10** Every drawn coordinate lies in `[0,1)`: the value 0 can
occur but 1 cannot; consequently every per-sample distance lies in
`[0, √2)`, and a sample with both coordinates 0 is counted as inside. -/
theorem uniform_draws_half_open :
    (∃ s : RandState, UniformStream s ∧ s.stream 0 = 0) ∧
    (∀ s : RandState, UniformStream s → ∀ i, s.stream i ≠ 1) ∧
    (∀ (n : Nat) (s : RandState) (rows : List (ℝ × ℝ)),
      UniformStream s → (npRandomRand (n : ℚ) s).1 = Except.ok rows →
      ∀ d ∈ npLinalgNorm rows, 0 ≤ d ∧ d < Real.sqrt 2) ∧
    npCountNonzero_lt_one (npLinalgNorm [((0 : ℝ), (0 : ℝ))]) = 1 := by
  refine ⟨⟨⟨fun _ => 0, 0⟩, fun i => ⟨le_refl 0, by norm_num⟩, rfl⟩,
    fun s hs i => ne_of_lt (hs i).2, ?_, ?_⟩
  · intro n s rows hs hrows d hd
    rw [npRandomRand_natCast] at hrows
    obtain rfl : ((List.range n).map fun i =>
        (s.stream (s.pos + 2 * i), s.stream (s.pos + 2 * i + 1))) = rows := by
      simpa using hrows
    rw [npLinalgNorm, List.map_map] at hd
    obtain ⟨i, _, rfl⟩ := List.mem_map.1 hd
    refine ⟨Real.sqrt_nonneg _, ?_⟩
    have hx := hs (s.pos + 2 * i)
    have hy := hs (s.pos + 2 * i + 1)
    refine Real.sqrt_lt_sqrt (by positivity) ?_
    have hx2 : s.stream (s.pos + 2 * i) ^ 2 < 1 :=
      pow_lt_one₀ hx.1 hx.2 (by norm_num)
    have hy2 : s.stream (s.pos + 2 * i + 1) ^ 2 < 1 :=
      pow_lt_one₀ hy.1 hy.2 (by norm_num)
    linarith
  · have h0 : Real.sqrt ((0 : ℝ) ^ 2 + (0 : ℝ) ^ 2) < 1 := by norm_num
    simp [npLinalgNorm, npCountNonzero_lt_one, h0]

/-- Witness for C10: a concrete uniform stream (constant 1/2) never
yields the value 1. -/
theorem uniform_draws_half_open_witness :
    (⟨fun _ => (1 / 2 : ℝ), 0⟩ : RandState).stream 0 ≠ 1 :=
  uniform_draws_half_open.2.1 ⟨fun _ => (1 / 2 : ℝ), 0⟩
    (fun _ => by norm_num) 0

end Workers
